import Mathlib

/-!
Verification development for a small HTTP CRUD service over a single
User resource (Express + Zod + Prisma).  The JavaScript sources are
shallowly embedded below: request bodies and query values become an
inductive JSON-like value type, the Zod user schema becomes a pure
parser collecting per-field issues, the error formatter becomes a pure
function on the formatted issue structure, JavaScript string-to-number
coercion and parseInt become explicit parsers, the six request handlers
become pure functions from their inputs (plus an oracle for the single
Prisma call each one can make) to an HTTP response together with a
record of the persistence call performed, and the Express router
becomes first-match dispatch over a static route table.
-/

/-- JavaScript values as they appear in parsed request bodies and in
Express query/param objects. -/
inductive JsVal where
  | vnull
  | vundef
  | vbool (b : Bool)
  | vnum (q : ℚ)
  | vstr (s : String)
  | varr (xs : List JsVal)
  | vobj (fields : List (String × JsVal))

/-- A persisted User record (Prisma model: numeric id, name, email). -/
structure User where
  id : Int
  name : String
  email : String
deriving DecidableEq, Repr

/-- The validated payload produced by the Zod user schema: exactly the
name and email fields (z.object strips unknown keys). -/
structure UserData where
  name : String
  email : String
deriving DecidableEq, Repr

/-- One Zod issue: the path of the offending field and a message. -/
structure ZodIssue where
  path : List String
  message : String
deriving DecidableEq, Repr

/-- Result of userSchema.safeParse. -/
inductive ParseResult where
  | success (data : UserData)
  | failure (issues : List ZodIssue)
deriving DecidableEq, Repr

/-- The Zod type name of a JavaScript value, as used in the default
invalid-type messages. -/
def jsTypeName : JsVal → String
  | .vnull => "null"
  | .vundef => "undefined"
  | .vbool _ => "boolean"
  | .vnum _ => "number"
  | .vstr _ => "string"
  | .varr _ => "array"
  | .vobj _ => "object"

/-- ASCII decimal digit test (on code points, as JavaScript does). -/
def isDigitCh (c : Char) : Bool := decide (48 ≤ c.toNat ∧ c.toNat ≤ 57)

/-- ASCII letter test. -/
def isAlphaCh (c : Char) : Bool :=
  decide ((65 ≤ c.toNat ∧ c.toNat ≤ 90) ∨ (97 ≤ c.toNat ∧ c.toNat ≤ 122))

/-- JavaScript whitespace, restricted to the code points that can
realistically occur here (tab, line feed, vertical tab, form feed,
carriage return, space, no-break space, byte order mark). -/
def jsWs (c : Char) : Bool :=
  decide (c.toNat = 9 ∨ c.toNat = 10 ∨ c.toNat = 11 ∨ c.toNat = 12 ∨
          c.toNat = 13 ∨ c.toNat = 32 ∨ c.toNat = 160 ∨ c.toNat = 65279)

/-- Strip leading JavaScript whitespace. -/
def dropWs (cs : List Char) : List Char := cs.dropWhile jsWs

/-- Strip leading and trailing JavaScript whitespace. -/
def trimWs (cs : List Char) : List Char :=
  ((cs.dropWhile jsWs).reverse.dropWhile jsWs).reverse

/-- ASCII lowercasing of one character (String.prototype.toLowerCase
on the character repertoire this service uses). -/
def toLowerCh (c : Char) : Char :=
  if decide (65 ≤ c.toNat ∧ c.toNat ≤ 90) then Char.ofNat (c.toNat + 32) else c

/-- String.prototype.toLowerCase. -/
def jsToLower (s : String) : String := String.mk (s.toList.map toLowerCh)

/-- String.prototype.trim. -/
def jsTrim (s : String) : String := String.mk (trimWs s.toList)

/- ---------------------------------------------------------------
   Zod email check (src/utils/globalZodSchema.js uses z.string().email).
   Modelled on the zod v3 email regular expression:
   no leading dot, no two consecutive dots anywhere, a local part of
   word characters, apostrophe, plus, minus and dots not ending in a
   dot or apostrophe, one at sign, and a domain of one or more labels
   (letter or digit first, then letters, digits or hyphens) followed by
   an alphabetic top level domain of length at least two.
   --------------------------------------------------------------- -/

/-- Characters allowed in the local part of an email address. -/
def isLocalCh (c : Char) : Bool :=
  isAlphaCh c || isDigitCh c || decide (c.toNat = 95) || decide (c.toNat = 39) ||
  decide (c.toNat = 43) || decide (c.toNat = 45) || decide (c.toNat = 46)

/-- Characters allowed as the last character of the local part. -/
def isLocalEndCh (c : Char) : Bool :=
  isAlphaCh c || isDigitCh c || decide (c.toNat = 95) ||
  decide (c.toNat = 43) || decide (c.toNat = 45)

/-- First character of a domain label: letter or digit. -/
def isLabelStartCh (c : Char) : Bool := isAlphaCh c || isDigitCh c

/-- Later characters of a domain label: letter, digit or hyphen. -/
def isLabelCh (c : Char) : Bool := isLabelStartCh c || decide (c.toNat = 45)

/-- Two consecutive dots somewhere in the character list. -/
def hasTwoDots : List Char → Bool
  | '.' :: '.' :: _ => true
  | _ :: rest => hasTwoDots rest
  | [] => false

/-- Split a character list at the dots. -/
def splitDots : List Char → List (List Char)
  | [] => [[]]
  | '.' :: rest => [] :: splitDots rest
  | c :: rest =>
    match splitDots rest with
    | [] => [[c]]
    | p :: ps => (c :: p) :: ps

/-- Valid email local part. -/
def validLocal (l : List Char) : Bool :=
  !l.isEmpty && l.all isLocalCh &&
  (match l.getLast? with
   | some c => isLocalEndCh c
   | none => false) &&
  !(l.head? == some '.')

/-- Valid non-final domain label. -/
def validLabel : List Char → Bool
  | [] => false
  | c :: rest => isLabelStartCh c && rest.all isLabelCh

/-- Valid top level domain: at least two characters, all letters. -/
def validTld (l : List Char) : Bool := decide (2 ≤ l.length) && l.all isAlphaCh

/-- Valid email domain: at least two dot-separated parts, every part
before the last a valid label, the last a valid top level domain. -/
def validDomain (d : List Char) : Bool :=
  let ps := splitDots d
  decide (2 ≤ ps.length) && ps.dropLast.all validLabel &&
  (match ps.getLast? with
   | some t => validTld t
   | none => false)

/-- z.string().email acceptance. -/
def isValidEmail (s : String) : Bool :=
  let cs := s.toList
  decide (cs.count '@' = 1) && !hasTwoDots cs &&
  validLocal (cs.takeWhile (fun c => !(c == '@'))) &&
  validDomain ((cs.dropWhile (fun c => !(c == '@'))).tail)

/- ---------------------------------------------------------------
   userSchema (src/utils/globalZodSchema.js):
     z.object({
       name: z.string().min(2, "Name must be at least 2 characters"),
       email: z.string().email("Email must be valid"),
     })
   Zod semantics: a missing or undefined field yields the issue
   "Required"; a non-string value yields "Expected string, received
   <type>"; a string failing the refinement yields the custom message.
   Issues of all fields are collected in one safeParse call, and the
   success payload carries only the declared keys.
   --------------------------------------------------------------- -/

/-- Look up a key in a JavaScript object literal. -/
def objLookup (fields : List (String × JsVal)) (k : String) : Option JsVal :=
  (fields.find? (fun p => p.1 == k)).map (fun p => p.2)

/-- Zod check of the name field: z.string().min(2, message). -/
def parseName (v : Option JsVal) : Except String String :=
  match v with
  | none => .error "Required"
  | some .vundef => .error "Required"
  | some (.vstr s) =>
    if s.length < 2 then .error "Name must be at least 2 characters" else .ok s
  | some w => .error ("Expected string, received " ++ jsTypeName w)

/-- Zod check of the email field: z.string().email(message). -/
def parseEmail (v : Option JsVal) : Except String String :=
  match v with
  | none => .error "Required"
  | some .vundef => .error "Required"
  | some (.vstr s) =>
    if isValidEmail s then .ok s else .error "Email must be valid"
  | some w => .error ("Expected string, received " ++ jsTypeName w)

/-- The issues contributed by one field check. -/
def fieldIssues (field : String) : Except String String → List ZodIssue
  | .ok _ => []
  | .error m => [⟨[field], m⟩]

/-- Combine the two field checks as z.object does: succeed only when
both succeed, otherwise collect the issues of every failing field. -/
def parseFields (n e : Option JsVal) : ParseResult :=
  match parseName n, parseEmail e with
  | .ok ns, .ok es => .success ⟨ns, es⟩
  | r1, r2 => .failure (fieldIssues "name" r1 ++ fieldIssues "email" r2)

/-- userSchema.safeParse on an arbitrary JavaScript value. -/
def safeParse (body : JsVal) : ParseResult :=
  match body with
  | .vobj fields => parseFields (objLookup fields "name") (objLookup fields "email")
  | .vundef => .failure [⟨[], "Required"⟩]
  | v => .failure [⟨[], "Expected object, received " ++ jsTypeName v⟩]

/- ---------------------------------------------------------------
   zodError.format(): group the issues by the first element of their
   path, the top level issues under the key "_errors", which is always
   present (first) in the formatted object.
   --------------------------------------------------------------- -/

/-- Append a message to the entry of a field, creating the entry at the
end when the field is new (JavaScript object insertion order). -/
def insertMsg : List (String × List String) → String → String → List (String × List String)
  | [], f, m => [(f, [m])]
  | (g, ms) :: rest, f, m =>
    if g == f then (g, ms ++ [m]) :: rest else (g, ms) :: insertMsg rest f m

/-- zodError.format() restricted to the field level: a list of
(key, messages) pairs, the top level messages under "_errors". -/
def zodFormat (issues : List ZodIssue) : List (String × List String) :=
  issues.foldl
    (fun acc i =>
      insertMsg acc
        (match i.path.head? with
         | some f => f
         | none => "_errors") i.message)
    [("_errors", [])]

/-- JavaScript Array.prototype.join with separator ", ". -/
def joinComma : List String → String
  | [] => ""
  | [m] => m
  | m :: rest => m ++ ", " ++ joinComma rest

/-- src/utils/formatZodError.js: iterate over the formatted fields,
skip the top level "_errors" key, skip fields without messages, join
the messages of a field with ", " and replace a joined string whose
lowercased and trimmed form is exactly "required" by the sentence
"The <field> field is required". -/
def formatZodError : List (String × List String) → List (String × String)
  | [] => []
  | (field, fieldErrors) :: rest =>
    if field == "_errors" then formatZodError rest
    else
      if 0 < fieldErrors.length then
        (field,
          if jsTrim (jsToLower (joinComma fieldErrors)) == "required" then
            "The " ++ field ++ " field is required"
          else joinComma fieldErrors) :: formatZodError rest
      else formatZodError rest

/-- Specification-side description of the formatting of one field. -/
def fmtOne (field m : String) : String :=
  if jsTrim (jsToLower m) == "required" then "The " ++ field ++ " field is required" else m

/- ---------------------------------------------------------------
   JavaScript numeric coercion: Number(string) as used by isNaN(id),
   and parseInt(string) as used at the Prisma call boundary.
   --------------------------------------------------------------- -/

/-- The result of the JavaScript Number coercion: NaN, a signed
infinity, or a finite value (modelled exactly as a rational). -/
inductive JsNum where
  | nan
  | inf (neg : Bool)
  | val (q : ℚ)
deriving DecidableEq, Repr

/-- Numeric value of an ASCII digit. -/
def digVal (c : Char) : ℕ := c.toNat - 48

/-- Value of a decimal digit string. -/
def digitsToNat (cs : List Char) : ℕ := cs.foldl (fun n c => 10 * n + digVal c) 0

/-- Hexadecimal digit test. -/
def isHexDigitCh (c : Char) : Bool :=
  isDigitCh c || decide (97 ≤ c.toNat ∧ c.toNat ≤ 102) ||
  decide (65 ≤ c.toNat ∧ c.toNat ≤ 70)

/-- Value of a hexadecimal digit. -/
def hexVal (c : Char) : ℕ :=
  if isDigitCh c then digVal c
  else if decide (97 ≤ c.toNat ∧ c.toNat ≤ 102) then c.toNat - 97 + 10
  else c.toNat - 65 + 10

/-- Value of a hexadecimal digit string. -/
def hexToNat (cs : List Char) : ℕ := cs.foldl (fun n c => 16 * n + hexVal c) 0

/-- Binary digit test. -/
def isBinDigitCh (c : Char) : Bool := decide (c.toNat = 48 ∨ c.toNat = 49)

/-- Value of a binary digit string. -/
def binToNat (cs : List Char) : ℕ := cs.foldl (fun n c => 2 * n + digVal c) 0

/-- Octal digit test. -/
def isOctDigitCh (c : Char) : Bool := decide (48 ≤ c.toNat ∧ c.toNat ≤ 55)

/-- Value of an octal digit string. -/
def octToNat (cs : List Char) : ℕ := cs.foldl (fun n c => 8 * n + digVal c) 0

/-- Split an optional leading sign: (isNegative, remainder). -/
def signSplit (cs : List Char) : Bool × List Char :=
  match cs with
  | c :: r => if c == '+' then (false, r) else if c == '-' then (true, r) else (false, cs)
  | [] => (false, cs)

/-- Exponent part of a decimal literal after the letter e: an optional
sign followed by at least one digit, consuming the whole remainder. -/
def parseExpVal (cs : List Char) : Option Int :=
  let p := signSplit cs
  if !p.2.isEmpty && p.2.all isDigitCh then
    some (if p.1 then -(digitsToNat p.2 : Int) else (digitsToNat p.2 : Int))
  else none

/-- Attach an optional exponent part to a mantissa. -/
def withExp (cs : List Char) (m : ℚ) : Option ℚ :=
  match cs with
  | [] => some m
  | 'e' :: r => (parseExpVal r).map (fun e => m * (10 : ℚ) ^ e)
  | 'E' :: r => (parseExpVal r).map (fun e => m * (10 : ℚ) ^ e)
  | _ => none

/-- Unsigned decimal literal of the Number grammar:
digits [. digits] [exponent] or . digits [exponent], consuming the
whole input; none when the input is not of this shape. -/
def parseUnsignedDec (cs : List Char) : Option ℚ :=
  let ip := cs.takeWhile isDigitCh
  let rest := cs.dropWhile isDigitCh
  match rest with
  | '.' :: r2 =>
    let fp := r2.takeWhile isDigitCh
    let r3 := r2.dropWhile isDigitCh
    if ip.isEmpty && fp.isEmpty then none
    else withExp r3 ((digitsToNat ip : ℚ) + (digitsToNat fp : ℚ) / (10 : ℚ) ^ fp.length)
  | _ => if ip.isEmpty then none else withExp rest (digitsToNat ip : ℚ)

/-- Radix-prefixed literals of the Number grammar (0x, 0b, 0o, no
sign allowed); none when the input does not start with such a prefix. -/
def parseRadix (cs : List Char) : Option JsNum :=
  match cs with
  | c1 :: c2 :: ds =>
    if c1 == '0' then
      if c2 == 'x' || c2 == 'X' then
        some (if !ds.isEmpty && ds.all isHexDigitCh then .val (hexToNat ds) else .nan)
      else if c2 == 'b' || c2 == 'B' then
        some (if !ds.isEmpty && ds.all isBinDigitCh then .val (binToNat ds) else .nan)
      else if c2 == 'o' || c2 == 'O' then
        some (if !ds.isEmpty && ds.all isOctDigitCh then .val (octToNat ds) else .nan)
      else none
    else none
  | _ => none

/-- JavaScript Number(string): trim whitespace, empty means zero, then
a radix-prefixed literal, a signed Infinity, or a signed decimal
literal; anything else is NaN.  Values are kept exact as rationals. -/
def jsStringToNumber (s : String) : JsNum :=
  let cs := trimWs s.toList
  if cs.isEmpty then .val 0
  else
    match parseRadix cs with
    | some r => r
    | none =>
      let p := signSplit cs
      if p.2 = "Infinity".toList then .inf p.1
      else
        match parseUnsignedDec p.2 with
        | some q => .val (if p.1 then -q else q)
        | none => .nan

/-- JavaScript parseInt(string) with no radix argument: strip leading
whitespace, optional sign, then a 0x-prefixed hexadecimal or a decimal
digit run (longest prefix); none models NaN. -/
def jsParseInt (s : String) : Option Int :=
  let cs := dropWs s.toList
  let p := signSplit cs
  let sgn : Int := if p.1 then -1 else 1
  match p.2 with
  | c1 :: c2 :: r2 =>
    if c1 == '0' && (c2 == 'x' || c2 == 'X') then
      let ds := r2.takeWhile isHexDigitCh
      if ds.isEmpty then none else some (sgn * (hexToNat ds : Int))
    else
      let ds := (c1 :: c2 :: r2).takeWhile isDigitCh
      if ds.isEmpty then none else some (sgn * (digitsToNat ds : Int))
  | r1 =>
    let ds := r1.takeWhile isDigitCh
    if ds.isEmpty then none else some (sgn * (digitsToNat ds : Int))

/-- Truncation of a rational toward zero. -/
def ratTrunc (q : ℚ) : Int := if 0 ≤ q then Int.floor q else -(Int.floor (-q))

/- ---------------------------------------------------------------
   Handlers (src/controller/UserController.js).  Each handler makes at
   most one Prisma call; the outcome of that call is an oracle
   parameter, and the handler returns the HTTP response together with
   the call it performed (none when persistence was never invoked).
   --------------------------------------------------------------- -/

/-- A persistence failure as the catch blocks see it: the message of
the thrown error and, when present, its meta.cause field. -/
structure DbError where
  message : String
  metaCause : Option String
deriving DecidableEq, Repr

/-- JSON response bodies the handlers produce. -/
inductive RespBody where
  | empty
  | errorObj (msg : String)
  | errorsObj (errs : List (String × String))
  | userObj (u : User)
  | userList (xs : List User)
deriving DecidableEq, Repr

/-- An HTTP response: status code and body. -/
structure Response where
  status : Nat
  body : RespBody
deriving DecidableEq, Repr

/-- The Prisma call a handler performed, with its arguments.  An id
argument of none models passing NaN to the where clause. -/
inductive DbCall where
  | create (data : UserData)
  | findUnique (id : Option Int)
  | update (id : Option Int) (data : UserData)
  | delete (id : Option Int)
  | findMany
  | findManySearch (query : String)
deriving DecidableEq, Repr

/-- JavaScript (s || fallback) for strings: the empty string is falsy. -/
def jsOrStr (s fallback : String) : String := if s == "" then fallback else s

/-- JavaScript (o?.field || fallback) for an optional string. -/
def jsOrOpt (o : Option String) (fallback : String) : String :=
  match o with
  | some c => if c == "" then fallback else c
  | none => fallback

/-- The invalid-id guard shared by getUser, updateUser and deleteUser:
(!id || isNaN(id)). -/
def invalidId : Option String → Bool
  | none => true
  | some s => s == "" || jsStringToNumber s == JsNum.nan

/-- UserController.createUser: validate the body with userSchema, on
failure 400 with the formatted errors and no persistence call; on
success call prisma.user.create and answer 201 with the record, or 500
with the error message (or the generic fallback) on failure. -/
def createUser (body : JsVal) (dbCreate : UserData → Except DbError User) :
    Response × Option DbCall :=
  match safeParse body with
  | .failure issues =>
    (⟨400, .errorsObj (formatZodError (zodFormat issues))⟩, none)
  | .success data =>
    match dbCreate data with
    | .ok user => (⟨201, .userObj user⟩, some (.create data))
    | .error e =>
      (⟨500, .errorObj (jsOrStr e.message "Internal Server Error")⟩, some (.create data))

/-- UserController.getUser: reject a missing, empty or non-numeric id
with 400; otherwise look the record up by parseInt(id); 404 when
absent, 200 with the record when present, 500 with the generic message
on persistence failure. -/
def getUser (id : Option String) (dbFind : Option Int → Except DbError (Option User)) :
    Response × Option DbCall :=
  match id with
  | none => (⟨400, .errorObj "Invalid user ID"⟩, none)
  | some s =>
    if invalidId (some s) then (⟨400, .errorObj "Invalid user ID"⟩, none)
    else
      let key := jsParseInt s
      match dbFind key with
      | .error _ => (⟨500, .errorObj "Internal Server Error"⟩, some (.findUnique key))
      | .ok none => (⟨404, .errorObj "User not found"⟩, some (.findUnique key))
      | .ok (some u) => (⟨200, .userObj u⟩, some (.findUnique key))

/-- UserController.updateUser: id guard as in getUser, then body
validation as in createUser, then prisma.user.update; 200 with the
updated record on success, 500 with the generic message on failure. -/
def updateUser (id : Option String) (body : JsVal)
    (dbUpdate : Option Int → UserData → Except DbError User) :
    Response × Option DbCall :=
  match id with
  | none => (⟨400, .errorObj "Invalid user ID"⟩, none)
  | some s =>
    if invalidId (some s) then (⟨400, .errorObj "Invalid user ID"⟩, none)
    else
      match safeParse body with
      | .failure issues =>
        (⟨400, .errorsObj (formatZodError (zodFormat issues))⟩, none)
      | .success data =>
        let key := jsParseInt s
        match dbUpdate key data with
        | .ok user => (⟨200, .userObj user⟩, some (.update key data))
        | .error _ =>
          (⟨500, .errorObj "Internal Server Error"⟩, some (.update key data))

/-- UserController.deleteUser: id guard as in getUser, then
prisma.user.delete; 204 with an empty body on success, 500 with
error?.meta?.cause (or the generic fallback) on failure. -/
def deleteUser (id : Option String) (dbDelete : Option Int → Except DbError Unit) :
    Response × Option DbCall :=
  match id with
  | none => (⟨400, .errorObj "Invalid user ID"⟩, none)
  | some s =>
    if invalidId (some s) then (⟨400, .errorObj "Invalid user ID"⟩, none)
    else
      let key := jsParseInt s
      match dbDelete key with
      | .ok _ => (⟨204, .empty⟩, some (.delete key))
      | .error e =>
        (⟨500, .errorObj (jsOrOpt e.metaCause "Internal Server Error")⟩, some (.delete key))

/-- UserController.listUsers: prisma.user.findMany with no filter; 200
with all records, 500 with the generic message on failure. -/
def listUsers (dbFindMany : Except DbError (List User)) : Response × Option DbCall :=
  match dbFindMany with
  | .ok users => (⟨200, .userList users⟩, some .findMany)
  | .error _ => (⟨500, .errorObj "Internal Server Error"⟩, some .findMany)

/- ---------------------------------------------------------------
   searchUsers and the Prisma string filter it builds.  The source
   passes { contains: query, lte: "insensitive" } for both name and
   email: contains is a case-sensitive substring test (the default
   mode), and lte is an additional lexicographic comparison of the
   field against the literal string "insensitive".
   --------------------------------------------------------------- -/

/-- needle is a leading segment of hay. -/
def startsWithList : List Char → List Char → Bool
  | [], _ => true
  | _ :: _, [] => false
  | a :: as, b :: bs => a == b && startsWithList as bs

/-- needle occurs contiguously in hay. -/
def containsList (hay needle : List Char) : Bool :=
  startsWithList needle hay ||
  match hay with
  | [] => false
  | _ :: t => containsList t needle

/-- Case-sensitive substring test on strings. -/
def strContains (hay needle : String) : Bool := containsList hay.toList needle.toList

/-- Lexicographic order on strings by code point, as the database
compares text in the C collation. -/
def charListLe : List Char → List Char → Bool
  | [], _ => true
  | _ :: _, [] => false
  | a :: as, b :: bs =>
    decide (a.toNat < b.toNat) || (a == b && charListLe as bs)

/-- String less-or-equal by code point. -/
def strLe (a b : String) : Bool := charListLe a.toList b.toList

/-- The Prisma string filter the search handler builds for one field:
{ contains: query, lte: "insensitive" } in default (case-sensitive)
mode, i.e. the field contains the query and the field compares
less-or-equal to the literal string "insensitive". -/
def prismaFieldMatch (field query : String) : Bool :=
  strContains field query && strLe field "insensitive"

/-- The where clause of the search: name matches the filter OR email
matches the filter. -/
def searchWhere (u : User) (query : String) : Bool :=
  prismaFieldMatch u.name query || prismaFieldMatch u.email query

/-- UserController.searchUsers: require a present, string, non-blank
query parameter, else 400 without persistence; otherwise
prisma.user.findMany with the OR filter above; 200 with the matches,
500 with the generic message on failure. -/
def searchUsers (q : Option JsVal) (db : Except DbError (List User)) :
    Response × Option DbCall :=
  match q with
  | some (.vstr s) =>
    if s == "" || String.mk (trimWs s.toList) == "" then
      (⟨400, .errorObj "Query parameter is required"⟩, none)
    else
      match db with
      | .ok users =>
        (⟨200, .userList (users.filter (fun u => searchWhere u s))⟩,
          some (.findManySearch s))
      | .error _ =>
        (⟨500, .errorObj "Internal Server Error"⟩, some (.findManySearch s))
  | _ => (⟨400, .errorObj "Query parameter is required"⟩, none)

/-- The behaviour the specification describes for the search: all
records whose name or email contains the query as a case-insensitive
substring. -/
def specSearchMatches (users : List User) (query : String) : List User :=
  users.filter (fun u =>
    strContains (jsToLower u.name) (jsToLower query) ||
    strContains (jsToLower u.email) (jsToLower query))

/- ---------------------------------------------------------------
   Router (src/routes/userRoutes.js): a static table matched in
   registration order, Express style, with :id a parameter segment.
   --------------------------------------------------------------- -/

/-- Names of the six handlers, for the dispatch table. -/
inductive HandlerName where
  | createUser | listUsers | searchUsers | getUser | updateUser | deleteUser
deriving DecidableEq, Repr

/-- One segment of a route pattern: a literal or a named parameter. -/
inductive Seg where
  | lit (s : String)
  | param (name : String)
deriving DecidableEq, Repr

/-- A registered route: method, pattern, handler. -/
structure Route where
  method : String
  segs : List Seg
  handler : HandlerName
deriving DecidableEq, Repr

/-- The route table of src/routes/userRoutes.js, in source order. -/
def userRoutes : List Route :=
  [⟨"POST", [.lit "users"], .createUser⟩,
   ⟨"GET", [.lit "users"], .listUsers⟩,
   ⟨"GET", [.lit "users", .lit "search"], .searchUsers⟩,
   ⟨"GET", [.lit "users", .param "id"], .getUser⟩,
   ⟨"PUT", [.lit "users", .param "id"], .updateUser⟩,
   ⟨"DELETE", [.lit "users", .param "id"], .deleteUser⟩]

/-- Match a pattern against concrete path segments, collecting the
parameter bindings. -/
def matchSegs : List Seg → List String → Option (List (String × String))
  | [], [] => some []
  | .lit s :: ss, t :: ts => if s == t then matchSegs ss ts else none
  | .param n :: ss, t :: ts => (matchSegs ss ts).map (fun ps => (n, t) :: ps)
  | _, _ => none

/-- Express dispatch: the first route whose method and pattern match
wins. -/
def dispatch (routes : List Route) (method : String) (path : List String) :
    Option (HandlerName × List (String × String)) :=
  match routes with
  | [] => none
  | r :: rs =>
    if r.method == method then
      match matchSegs r.segs path with
      | some ps => some (r.handler, ps)
      | none => dispatch rs method path
    else dispatch rs method path

/- ---------------------------------------------------------------
   Specification-side helpers used only in theorem statements.
   --------------------------------------------------------------- -/

/-- The fields of a request body that the user schema rejects. -/
def invalidFieldKeys : JsVal → List String
  | .vobj fields =>
    (match parseName (objLookup fields "name") with
     | .ok _ => []
     | .error _ => ["name"]) ++
    (match parseEmail (objLookup fields "email") with
     | .ok _ => []
     | .error _ => ["email"])
  | _ => []

/-- A plain decimal string: optional minus sign, integer digits, a
dot, fractional digits. -/
def mkDecStr (neg : Bool) (ip fp : List Char) : String :=
  String.mk ((if neg then ['-'] else []) ++ ip ++ '.' :: fp)

/-- The exact numeric value of a plain decimal string. -/
def decValue (neg : Bool) (ip fp : List Char) : ℚ :=
  let v := (digitsToNat ip : ℚ) + (digitsToNat fp : ℚ) / (10 : ℚ) ^ fp.length
  if neg then -v else v

/- ===============================================================
   Theorems
   =============================================================== -/

/-- C1: the claim says searchUsers matches name or email by
case-insensitive substring; the source instead builds the filter
{ contains: query, lte: "insensitive" } — the string "insensitive" is
placed on the lte key instead of the mode key — so the record named
"sal" is not returned for the query "sal" (its name compares greater
than "insensitive"), although the claimed case-insensitive substring
semantics would return it.  The blank-query branch behaves as claimed. -/
theorem C1_search_filter_bug :
    (searchUsers (some (.vstr "sal")) (.ok [⟨1, "sal", "s@s.com"⟩])).1 =
      ⟨200, .userList []⟩ ∧
    specSearchMatches [⟨1, "sal", "s@s.com"⟩] "sal" = [⟨1, "sal", "s@s.com"⟩] ∧
    searchUsers none (.ok [⟨1, "sal", "s@s.com"⟩]) =
      (⟨400, .errorObj "Query parameter is required"⟩, none) ∧
    searchUsers (some (.vstr "  ")) (.ok [⟨1, "sal", "s@s.com"⟩]) =
      (⟨400, .errorObj "Query parameter is required"⟩, none) :=
  ⟨rfl, by decide, rfl, rfl⟩

/-- C4 counterexample: a body without a name field fails validation
with the Zod message "Required" on the name field, not with the claimed
message "Name must be at least 2 characters". -/
theorem C4_missing_name_counterexample :
    safeParse (.vobj [("email", .vstr "a@b.com")]) =
      .failure [⟨["name"], "Required"⟩] ∧
    "Required" ≠ "Name must be at least 2 characters" :=
  ⟨rfl, by decide⟩

/-- C6: for a valid numeric id whose lookup succeeds, getUser answers
404 with error "User not found" when no record exists and 200 with the
record when one does. -/
theorem C6_getUser_found_or_404 (s : String)
    (hs : invalidId (some s) = false)
    (dbFind : Option Int → Except DbError (Option User)) (r : Option User)
    (hdb : dbFind (jsParseInt s) = .ok r) :
    getUser (some s) dbFind =
      match r with
      | none => (⟨404, .errorObj "User not found"⟩, some (.findUnique (jsParseInt s)))
      | some u => (⟨200, .userObj u⟩, some (.findUnique (jsParseInt s))) := by
  cases r <;> simp [getUser, hs, hdb]

/-- C6 witness: getUser on the valid id 7 against an empty database
answers 404 User not found. -/
theorem C6_witness :
    getUser (some "7") (fun _ => Except.ok none) =
      (⟨404, .errorObj "User not found"⟩, some (.findUnique (some 7))) :=
  C6_getUser_found_or_404 "7" rfl (fun _ => Except.ok none) none rfl

/-- C7: for a valid numeric id, deleteUser answers 204 with an empty
body when the delete succeeds, and on failure 500 with the meta cause
of the persistence error when it exposes a non-empty one, else the
generic message. -/
theorem C7_deleteUser_outcomes (s : String)
    (hs : invalidId (some s) = false)
    (dbDelete : Option Int → Except DbError Unit) :
    (dbDelete (jsParseInt s) = .ok () →
      deleteUser (some s) dbDelete = (⟨204, .empty⟩, some (.delete (jsParseInt s)))) ∧
    (∀ e, dbDelete (jsParseInt s) = .error e →
      deleteUser (some s) dbDelete =
        (⟨500, .errorObj (jsOrOpt e.metaCause "Internal Server Error")⟩,
          some (.delete (jsParseInt s)))) := by
  constructor
  · intro h
    simp [deleteUser, hs, h]
  · intro e h
    simp [deleteUser, hs, h]

/-- C7 witness: deleting the valid id 3 with a succeeding persistence
call answers 204 with an empty body. -/
theorem C7_witness :
    deleteUser (some "3") (fun _ => Except.ok ()) =
      (⟨204, .empty⟩, some (.delete (some 3))) :=
  (C7_deleteUser_outcomes "3" rfl (fun _ => Except.ok ())).1 rfl

/-- C3: the formatter maps every field except the top level "_errors"
key that has at least one message to its messages joined with ", ",
replacing a joined string whose lowercased trimmed form is exactly
"required" by the field-specific sentence, omits fields without
messages, and on the literal example produces the required sentence. -/
theorem C3_formatter_policy (formatted : List (String × List String)) :
    formatZodError formatted =
      formatted.filterMap (fun p =>
        if p.1 = "_errors" then none
        else if p.2 = [] then none
        else some (p.1, fmtOne p.1 (joinComma p.2))) ∧
    formatZodError [("name", ["required"])] = [("name", "The name field is required")] := by
  refine ⟨?_, rfl⟩
  induction formatted with
  | nil => rfl
  | cons p rest ih =>
    obtain ⟨field, fieldErrors⟩ := p
    by_cases h1 : field = "_errors"
    · subst h1
      simpa [formatZodError] using ih
    · cases fieldErrors with
      | nil => simpa [formatZodError, h1] using ih
      | cons m ms => simp [formatZodError, h1, fmtOne, ih]

/-- Shape of the formatted errors when only the name field fails. -/
theorem fzShapeName (m : String) :
    formatZodError (zodFormat [⟨["name"], m⟩]) = [("name", fmtOne "name" m)] := rfl

/-- Shape of the formatted errors when only the email field fails. -/
theorem fzShapeEmail (m : String) :
    formatZodError (zodFormat [⟨["email"], m⟩]) = [("email", fmtOne "email" m)] := rfl

/-- Shape of the formatted errors when both fields fail. -/
theorem fzShapeBoth (m1 m2 : String) :
    formatZodError (zodFormat [⟨["name"], m1⟩, ⟨["email"], m2⟩]) =
      [("name", fmtOne "name" m1), ("email", fmtOne "email" m2)] := rfl

/-- Shape of the formatted errors for a single top level issue. -/
theorem fzShapeTop (m : String) : formatZodError (zodFormat [⟨[], m⟩]) = [] := rfl

/-- C2: a body failing schema validation makes createUser, and
updateUser on a valid id, answer 400 with the formatted errors object
and perform no persistence call, and the errors object has exactly one
entry per invalid field. -/
theorem C2_invalid_body_no_persistence (body : JsVal) (iss : List ZodIssue)
    (hfail : safeParse body = .failure iss)
    (dbC : UserData → Except DbError User)
    (s : String) (hs : invalidId (some s) = false)
    (dbU : Option Int → UserData → Except DbError User) :
    createUser body dbC = (⟨400, .errorsObj (formatZodError (zodFormat iss))⟩, none) ∧
    updateUser (some s) body dbU =
      (⟨400, .errorsObj (formatZodError (zodFormat iss))⟩, none) ∧
    (formatZodError (zodFormat iss)).map Prod.fst = invalidFieldKeys body := by
  refine ⟨?_, ?_, ?_⟩
  · simp [createUser, hfail]
  · simp [updateUser, hs, hfail]
  · cases body with
    | vobj fields =>
      have h2 : parseFields (objLookup fields "name") (objLookup fields "email") =
          .failure iss := hfail
      cases hn : parseName (objLookup fields "name") with
      | ok ns =>
        cases he : parseEmail (objLookup fields "email") with
        | ok es => simp [parseFields, hn, he] at h2
        | error m2 =>
          simp [parseFields, hn, he, fieldIssues] at h2
          subst h2
          simp [fzShapeEmail, invalidFieldKeys, hn, he]
      | error m1 =>
        cases he : parseEmail (objLookup fields "email") with
        | ok es =>
          simp [parseFields, hn, he, fieldIssues] at h2
          subst h2
          simp [fzShapeName, invalidFieldKeys, hn, he]
        | error m2 =>
          simp [parseFields, hn, he, fieldIssues] at h2
          subst h2
          simp [fzShapeBoth, invalidFieldKeys, hn, he]
    | vundef =>
      simp [safeParse] at hfail
      subst hfail
      simp [fzShapeTop, invalidFieldKeys]
    | vnull =>
      simp [safeParse] at hfail
      subst hfail
      simp [fzShapeTop, invalidFieldKeys]
    | vbool b =>
      simp [safeParse] at hfail
      subst hfail
      simp [fzShapeTop, invalidFieldKeys]
    | vnum q =>
      simp [safeParse] at hfail
      subst hfail
      simp [fzShapeTop, invalidFieldKeys]
    | vstr t =>
      simp [safeParse] at hfail
      subst hfail
      simp [fzShapeTop, invalidFieldKeys]
    | varr xs =>
      simp [safeParse] at hfail
      subst hfail
      simp [fzShapeTop, invalidFieldKeys]

/-- C2 witness: a body with a too-short name and an invalid email is
rejected by both handlers with one message per field and no
persistence call. -/
theorem C2_witness :
    createUser (.vobj [("name", .vstr "A"), ("email", .vstr "bad")])
        (fun d => Except.ok ⟨1, d.name, d.email⟩) =
      (⟨400, .errorsObj (formatZodError (zodFormat
        [⟨["name"], "Name must be at least 2 characters"⟩,
         ⟨["email"], "Email must be valid"⟩]))⟩, none) ∧
    updateUser (some "3") (.vobj [("name", .vstr "A"), ("email", .vstr "bad")])
        (fun _ d => Except.ok ⟨3, d.name, d.email⟩) =
      (⟨400, .errorsObj (formatZodError (zodFormat
        [⟨["name"], "Name must be at least 2 characters"⟩,
         ⟨["email"], "Email must be valid"⟩]))⟩, none) ∧
    (formatZodError (zodFormat
        [⟨["name"], "Name must be at least 2 characters"⟩,
         ⟨["email"], "Email must be valid"⟩])).map Prod.fst =
      invalidFieldKeys (.vobj [("name", .vstr "A"), ("email", .vstr "bad")]) :=
  C2_invalid_body_no_persistence (.vobj [("name", .vstr "A"), ("email", .vstr "bad")])
    [⟨["name"], "Name must be at least 2 characters"⟩, ⟨["email"], "Email must be valid"⟩]
    rfl (fun d => Except.ok ⟨1, d.name, d.email⟩) "3" rfl
    (fun _ d => Except.ok ⟨3, d.name, d.email⟩)

/-- C4 amended: the name field fails exactly when the value is not a
string of length at least two, but the message "Name must be at least
2 characters" appears exactly for strings shorter than two characters;
a missing field fails with the Zod message "Required".  The email
field behaves analogously with "Email must be valid" for strings that
are not well-formed addresses.  One safeParse call collects the issues
of both invalid fields. -/
theorem C4_amended_schema_rules :
    (∀ v, (∃ m, parseName v = .error m) ↔ ¬ (∃ s, v = some (.vstr s) ∧ 2 ≤ s.length)) ∧
    (∀ s : String,
      parseName (some (.vstr s)) = .error "Name must be at least 2 characters"
        ↔ s.length < 2) ∧
    parseName none = .error "Required" ∧
    (∀ v, (∃ m, parseEmail v = .error m) ↔
      ¬ (∃ s, v = some (.vstr s) ∧ isValidEmail s = true)) ∧
    (∀ s : String,
      parseEmail (some (.vstr s)) = .error "Email must be valid" ↔ isValidEmail s = false) ∧
    parseEmail none = .error "Required" ∧
    (∀ f m1 m2, parseName (objLookup f "name") = .error m1 →
      parseEmail (objLookup f "email") = .error m2 →
      safeParse (.vobj f) = .failure [⟨["name"], m1⟩, ⟨["email"], m2⟩]) := by
  refine ⟨?_, ?_, rfl, ?_, ?_, rfl, ?_⟩
  · intro v
    match v with
    | none => simp [parseName]
    | some .vundef => simp [parseName]
    | some .vnull => simp [parseName]
    | some (.vbool b) => simp [parseName]
    | some (.vnum q) => simp [parseName]
    | some (.varr xs) => simp [parseName]
    | some (.vobj fs) => simp [parseName]
    | some (.vstr s) =>
      by_cases h : s.length < 2 <;> simp [parseName, h]
  · intro s
    by_cases h : s.length < 2 <;> simp [parseName, h]
  · intro v
    match v with
    | none => simp [parseEmail]
    | some .vundef => simp [parseEmail]
    | some .vnull => simp [parseEmail]
    | some (.vbool b) => simp [parseEmail]
    | some (.vnum q) => simp [parseEmail]
    | some (.varr xs) => simp [parseEmail]
    | some (.vobj fs) => simp [parseEmail]
    | some (.vstr s) =>
      by_cases h : isValidEmail s <;> simp [parseEmail, h]
  · intro s
    by_cases h : isValidEmail s <;> simp [parseEmail, h]
  · intro f m1 m2 hn he
    show parseFields _ _ = _
    simp [parseFields, hn, he, fieldIssues]

/-- C4 amended witness: a one-character name yields the custom minimum
message, and a body with a short name and a bad email collects both
issues in one call. -/
theorem C4_amended_witness :
    parseName (some (.vstr "A")) = .error "Name must be at least 2 characters" ∧
    safeParse (.vobj [("name", .vstr "A"), ("email", .vstr "bad")]) =
      .failure [⟨["name"], "Name must be at least 2 characters"⟩,
                ⟨["email"], "Email must be valid"⟩] :=
  ⟨(C4_amended_schema_rules.2.1 "A").mpr (by decide),
   C4_amended_schema_rules.2.2.2.2.2.2 [("name", .vstr "A"), ("email", .vstr "bad")]
     "Name must be at least 2 characters" "Email must be valid" rfl rfl⟩

/-- C8 counterexample: getUser discards the message of the persistence
failure — a lookup failing with message "boom" is reported as the
generic "Internal Server Error", although the claim says the
underlying message is used when available. -/
theorem C8_message_dropped_counterexample :
    getUser (some "7") (fun _ => Except.error ⟨"boom", none⟩) =
      (⟨500, .errorObj "Internal Server Error"⟩, some (.findUnique (some 7))) ∧
    "Internal Server Error" ≠ "boom" :=
  ⟨rfl, by decide⟩

/-- C8 amended: every persistence failure yields 500 with an error
body, but only createUser uses the message of the failure (when
non-empty), and only deleteUser uses its meta cause (when non-empty);
getUser, updateUser, listUsers and searchUsers always answer with the
generic "Internal Server Error". -/
theorem C8_amended_500_bodies :
    (∀ body data e (dbC : UserData → Except DbError User),
      safeParse body = .success data → dbC data = .error e →
      createUser body dbC =
        (⟨500, .errorObj (jsOrStr e.message "Internal Server Error")⟩,
          some (.create data))) ∧
    (∀ s e (dbFind : Option Int → Except DbError (Option User)),
      invalidId (some s) = false → dbFind (jsParseInt s) = .error e →
      getUser (some s) dbFind =
        (⟨500, .errorObj "Internal Server Error"⟩, some (.findUnique (jsParseInt s)))) ∧
    (∀ s body data e (dbU : Option Int → UserData → Except DbError User),
      invalidId (some s) = false → safeParse body = .success data →
      dbU (jsParseInt s) data = .error e →
      updateUser (some s) body dbU =
        (⟨500, .errorObj "Internal Server Error"⟩,
          some (.update (jsParseInt s) data))) ∧
    (∀ s e (dbD : Option Int → Except DbError Unit),
      invalidId (some s) = false → dbD (jsParseInt s) = .error e →
      deleteUser (some s) dbD =
        (⟨500, .errorObj (jsOrOpt e.metaCause "Internal Server Error")⟩,
          some (.delete (jsParseInt s)))) ∧
    (∀ e, listUsers (.error e) =
      (⟨500, .errorObj "Internal Server Error"⟩, some .findMany)) ∧
    (∀ s e, (jsTrim s == "") = false →
      searchUsers (some (.vstr s)) (.error e) =
        (⟨500, .errorObj "Internal Server Error"⟩, some (.findManySearch s))) := by
  refine ⟨?_, ?_, ?_, ?_, ?_, ?_⟩
  · intro body data e dbC hp hdb
    simp [createUser, hp, hdb]
  · intro s e dbFind hs hdb
    simp [getUser, hs, hdb]
  · intro s body data e dbU hs hp hdb
    simp [updateUser, hs, hp, hdb]
  · intro s e dbD hs hdb
    simp [deleteUser, hs, hdb]
  · intro e
    rfl
  · intro s e hq
    have hs : (s == "") = false := by
      apply beq_eq_false_iff_ne.mpr
      intro h
      subst h
      exact (beq_eq_false_iff_ne.mp hq) rfl
    have hq2 : ¬ ({ data := trimWs s.data } : String) = "" := fun h =>
      (beq_eq_false_iff_ne.mp hq) h
    simp [searchUsers, hs, hq2]

/-- C8 amended witness: a create whose persistence call fails with
message "boom" reports 500 with that message. -/
theorem C8_amended_witness :
    createUser (.vobj [("name", .vstr "Al"), ("email", .vstr "a@b.com")])
        (fun _ => Except.error ⟨"boom", none⟩) =
      (⟨500, .errorObj (jsOrStr "boom" "Internal Server Error")⟩,
        some (.create ⟨"Al", "a@b.com"⟩)) :=
  C8_amended_500_bodies.1 (.vobj [("name", .vstr "Al"), ("email", .vstr "a@b.com")])
    ⟨"Al", "a@b.com"⟩ ⟨"boom", none⟩ (fun _ => Except.error ⟨"boom", none⟩) rfl rfl

/-- C9: a GET of /users/search dispatches to searchUsers with no
captured parameters, and no GET dispatch to getUser ever binds the id
parameter to the literal segment "search". -/
theorem C9_search_route_priority :
    dispatch userRoutes "GET" ["users", "search"] = some (.searchUsers, []) ∧
    (∀ path ps, dispatch userRoutes "GET" path = some (.getUser, ps) →
      ("id", "search") ∉ ps) := by
  refine ⟨rfl, ?_⟩
  intro path ps h
  match path with
  | [] => simp [dispatch, userRoutes, matchSegs] at h
  | [a] =>
    by_cases ha : "users" = a <;>
      simp [dispatch, userRoutes, matchSegs, ha] at h
  | [a, b] =>
    by_cases ha : "users" = a
    · subst ha
      by_cases hb : "search" = b
      · subst hb
        simp [dispatch, userRoutes, matchSegs] at h
      · simp [dispatch, userRoutes, matchSegs, hb] at h
        subst h
        simp
        intro hc
        exact hb hc
    · simp [dispatch, userRoutes, matchSegs, ha] at h
  | a :: b :: c :: rest =>
    simp [dispatch, userRoutes, matchSegs, ite_self] at h

/-- C9 witness: a GET of /users/7 binds id to 7, and the binding list
does not pair id with "search". -/
theorem C9_witness : ("id", "search") ∉ [("id", "7")] :=
  C9_search_route_priority.2 ["users", "7"] [("id", "7")] rfl

/-- Inversion of a successful object parse: both field checks passed
with exactly the payload fields. -/
theorem parseFields_success (n e : Option JsVal) (d : UserData)
    (h : parseFields n e = .success d) :
    parseName n = .ok d.name ∧ parseEmail e = .ok d.email := by
  cases hn : parseName n with
  | ok ns =>
    cases he : parseEmail e with
    | ok es =>
      simp [parseFields, hn, he] at h
      simp [← h]
    | error m2 => simp [parseFields, hn, he] at h
  | error m1 =>
    cases he : parseEmail e <;> simp [parseFields, hn, he] at h

/-- A successful name check means the input was that string. -/
theorem parseName_ok (v : Option JsVal) (s : String) (h : parseName v = .ok s) :
    v = some (.vstr s) := by
  match v with
  | none => simp [parseName] at h
  | some .vundef => simp [parseName] at h
  | some .vnull => simp [parseName] at h
  | some (.vbool b) => simp [parseName] at h
  | some (.vnum q) => simp [parseName] at h
  | some (.varr xs) => simp [parseName] at h
  | some (.vobj fs) => simp [parseName] at h
  | some (.vstr t) =>
    by_cases hl : t.length < 2
    · simp [parseName, hl] at h
    · simp [parseName, hl] at h
      simp [h]

/-- A successful email check means the input was that string. -/
theorem parseEmail_ok (v : Option JsVal) (s : String) (h : parseEmail v = .ok s) :
    v = some (.vstr s) := by
  match v with
  | none => simp [parseEmail] at h
  | some .vundef => simp [parseEmail] at h
  | some .vnull => simp [parseEmail] at h
  | some (.vbool b) => simp [parseEmail] at h
  | some (.vnum q) => simp [parseEmail] at h
  | some (.varr xs) => simp [parseEmail] at h
  | some (.vobj fs) => simp [parseEmail] at h
  | some (.vstr t) =>
    by_cases hv : isValidEmail t
    · simp [parseEmail, hv] at h
      simp [h]
    · simp [parseEmail, hv] at h

/-- C10: bodies agreeing on the name and email fields are
indistinguishable to createUser and updateUser, and the payload of a
persistence create call is exactly the name and email values of the
body — unknown fields are stripped by validation and never reach
persistence. -/
theorem C10_unknown_fields_never_persisted (f1 f2 : List (String × JsVal))
    (hn : objLookup f1 "name" = objLookup f2 "name")
    (he : objLookup f1 "email" = objLookup f2 "email")
    (dbC : UserData → Except DbError User)
    (id : Option String) (dbU : Option Int → UserData → Except DbError User) :
    createUser (.vobj f1) dbC = createUser (.vobj f2) dbC ∧
    updateUser id (.vobj f1) dbU = updateUser id (.vobj f2) dbU ∧
    (∀ d, (createUser (.vobj f1) dbC).2 = some (.create d) →
      objLookup f1 "name" = some (.vstr d.name) ∧
      objLookup f1 "email" = some (.vstr d.email)) := by
  have hsp : safeParse (.vobj f1) = safeParse (.vobj f2) := by
    show parseFields _ _ = parseFields _ _
    rw [hn, he]
  refine ⟨?_, ?_, ?_⟩
  · simp only [createUser, hsp]
  · simp only [updateUser, hsp]
  · intro d hd
    cases hs1 : safeParse (.vobj f1) with
    | failure iss => simp [createUser, hs1] at hd
    | success data =>
      have hdd : data = d := by
        cases hdb : dbC data <;> simp [createUser, hs1, hdb] at hd <;> exact hd
      subst hdd
      obtain ⟨h1, h2⟩ := parseFields_success _ _ _ hs1
      exact ⟨parseName_ok _ _ h1, parseEmail_ok _ _ h2⟩

/-- dropWhile is the identity when no element passes the test. -/
theorem dropWhileAllFalse (p : Char → Bool) (l : List Char)
    (h : ∀ c ∈ l, p c = false) : l.dropWhile p = l := by
  cases l with
  | nil => rfl
  | cons c t => rw [List.dropWhile_cons, h c (by simp)]; simp

/-- Trimming is the identity on lists without whitespace. -/
theorem trimWsAllFalse (l : List Char) (h : ∀ c ∈ l, jsWs c = false) : trimWs l = l := by
  unfold trimWs
  rw [dropWhileAllFalse _ _ h,
    dropWhileAllFalse _ _ (fun c hc => h c (List.mem_reverse.mp hc)),
    List.reverse_reverse]

/-- takeWhile passes over a prefix every element of which passes. -/
theorem takeWhileAllTrue (p : Char → Bool) (l1 l2 : List Char)
    (h : ∀ c ∈ l1, p c = true) : (l1 ++ l2).takeWhile p = l1 ++ l2.takeWhile p := by
  induction l1 with
  | nil => simp
  | cons c t ih =>
    simp only [List.cons_append, List.takeWhile_cons, h c (by simp)]
    simp [ih (fun x hx => h x (by simp [hx]))]

/-- dropWhile removes a prefix every element of which passes. -/
theorem dropWhileAllTrue (p : Char → Bool) (l1 l2 : List Char)
    (h : ∀ c ∈ l1, p c = true) : (l1 ++ l2).dropWhile p = l2.dropWhile p := by
  induction l1 with
  | nil => simp
  | cons c t ih =>
    simp only [List.cons_append, List.dropWhile_cons, h c (by simp)]
    simp [ih (fun x hx => h x (by simp [hx]))]

/-- Digits are not JavaScript whitespace. -/
theorem jsWs_of_digit (c : Char) (h : isDigitCh c = true) : jsWs c = false := by
  have hb := of_decide_eq_true h
  apply decide_eq_false
  omega

/-- A digit differs from any non-digit character. -/
theorem digit_ne (c d : Char) (h : isDigitCh c = true) (hd : isDigitCh d = false) :
    (c == d) = false := by
  apply beq_eq_false_iff_ne.mpr
  intro hcd
  subst hcd
  simp [h] at hd

/-- Bound on the decimal fold from an arbitrary accumulator. -/
theorem digitsFoldBound (cs : List Char) (h : ∀ c ∈ cs, isDigitCh c = true) :
    ∀ acc : ℕ, cs.foldl (fun n c => 10 * n + digVal c) acc < (acc + 1) * 10 ^ cs.length := by
  induction cs with
  | nil => intro acc; simp
  | cons c t ih =>
    intro acc
    have hc := of_decide_eq_true (h c (by simp))
    have hd : digVal c ≤ 9 := by unfold digVal; omega
    have ht : ∀ x ∈ t, isDigitCh x = true := fun x hx => h x (by simp [hx])
    calc (c :: t).foldl (fun n c => 10 * n + digVal c) acc
        = t.foldl (fun n c => 10 * n + digVal c) (10 * acc + digVal c) := by simp
      _ < (10 * acc + digVal c + 1) * 10 ^ t.length := ih ht _
      _ ≤ ((acc + 1) * 10) * 10 ^ t.length :=
          mul_le_mul_right' (by omega) (10 ^ t.length)
      _ = (acc + 1) * 10 ^ (c :: t).length := by
          rw [List.length_cons, pow_succ]; ring

/-- The value of a digit string is below the corresponding power of
ten. -/
theorem digitsToNat_lt_pow (cs : List Char) (h : ∀ c ∈ cs, isDigitCh c = true) :
    digitsToNat cs < 10 ^ cs.length := by
  simpa [digitsToNat] using digitsFoldBound cs h 0

/-- Truncation of a natural plus a proper fraction, and of its
negation. -/
theorem ratTrunc_of_fract (n : ℕ) (f : ℚ) (h0 : 0 ≤ f) (h1 : f < 1) :
    ratTrunc ((n : ℚ) + f) = (n : ℤ) ∧ ratTrunc (-((n : ℚ) + f)) = -(n : ℤ) := by
  have hnq : (0 : ℚ) ≤ (n : ℚ) := Nat.cast_nonneg n
  have hnn : (0 : ℚ) ≤ (n : ℚ) + f := by linarith
  have hfl : Int.floor ((n : ℚ) + f) = (n : ℤ) := by
    rw [Int.floor_eq_iff]
    constructor
    · push_cast; linarith
    · push_cast; linarith
  constructor
  · rw [ratTrunc, if_pos hnn, hfl]
  · by_cases hz : (n : ℚ) + f = 0
    · have hf0 : f = 0 := by linarith
      have hn0 : n = 0 := by
        have hnz : (n : ℚ) = 0 := by linarith
        exact_mod_cast hnz
      subst hf0
      subst hn0
      norm_num [ratTrunc]
    · have hlt : (0 : ℚ) < (n : ℚ) + f := lt_of_le_of_ne hnn (Ne.symm hz)
      have hneg : ¬ (0 : ℚ) ≤ -((n : ℚ) + f) := by linarith
      rw [ratTrunc, if_neg hneg, neg_neg, hfl]

/-- parseRadix rejects any list whose second character is a digit or a
dot. -/
theorem parseRadix_no_letter (c1 c2 : Char) (ds : List Char)
    (h : isDigitCh c2 = true ∨ c2 = '.') : parseRadix (c1 :: c2 :: ds) = none := by
  have hx : (c2 == 'x') = false := by
    rcases h with h | rfl
    · exact digit_ne _ _ h (by decide)
    · decide
  have hX : (c2 == 'X') = false := by
    rcases h with h | rfl
    · exact digit_ne _ _ h (by decide)
    · decide
  have hb : (c2 == 'b') = false := by
    rcases h with h | rfl
    · exact digit_ne _ _ h (by decide)
    · decide
  have hB : (c2 == 'B') = false := by
    rcases h with h | rfl
    · exact digit_ne _ _ h (by decide)
    · decide
  have ho : (c2 == 'o') = false := by
    rcases h with h | rfl
    · exact digit_ne _ _ h (by decide)
    · decide
  have hO : (c2 == 'O') = false := by
    rcases h with h | rfl
    · exact digit_ne _ _ h (by decide)
    · decide
  unfold parseRadix
  simp [hx, hX, hb, hB, ho, hO]

/-- signSplit leaves a minus sign aside. -/
theorem signSplit_minus (r : List Char) : signSplit ('-' :: r) = (true, r) := rfl

/-- signSplit is the identity on digit-headed lists. -/
theorem signSplit_digit (c : Char) (r : List Char) (h : isDigitCh c = true) :
    signSplit (c :: r) = (false, c :: r) := by
  simp [signSplit, digit_ne c '+' h (by decide), digit_ne c '-' h (by decide)]

/-- No character of a plain decimal string is whitespace. -/
theorem decChars_no_ws (i0 : Char) (ip fp : List Char)
    (h0 : isDigitCh i0 = true) (h1 : ∀ c ∈ ip, isDigitCh c = true)
    (h2 : ∀ c ∈ fp, isDigitCh c = true) :
    ∀ c ∈ i0 :: (ip ++ '.' :: fp), jsWs c = false := by
  intro c hc
  rcases List.mem_cons.mp hc with rfl | hc2
  · exact jsWs_of_digit _ h0
  · rcases List.mem_append.mp hc2 with h | h
    · exact jsWs_of_digit _ (h1 _ h)
    · rcases List.mem_cons.mp h with rfl | h
      · decide
      · exact jsWs_of_digit _ (h2 _ h)

/-- parseRadix rejects the digit body of a plain decimal string. -/
theorem decChars_parseRadix (i0 : Char) (ip fp : List Char)
    (h1 : ∀ c ∈ ip, isDigitCh c = true) :
    parseRadix (i0 :: (ip ++ '.' :: fp)) = none := by
  cases ip with
  | nil => exact parseRadix_no_letter i0 '.' fp (Or.inr rfl)
  | cons j ip2 =>
    exact parseRadix_no_letter i0 j (ip2 ++ '.' :: fp) (Or.inl (h1 j (by simp)))

/-- The leading digit run of a plain decimal body. -/
theorem decChars_takeWhile (i0 : Char) (ip fp : List Char)
    (h0 : isDigitCh i0 = true) (h1 : ∀ c ∈ ip, isDigitCh c = true) :
    (i0 :: (ip ++ '.' :: fp)).takeWhile isDigitCh = i0 :: ip := by
  have h := takeWhileAllTrue isDigitCh (i0 :: ip) ('.' :: fp)
    (by
      intro c hc
      rcases List.mem_cons.mp hc with rfl | hc
      · exact h0
      · exact h1 _ hc)
  simpa [List.takeWhile_cons, show isDigitCh '.' = false from by decide] using h

/-- The remainder after the leading digit run of a plain decimal
body. -/
theorem decChars_dropWhile (i0 : Char) (ip fp : List Char)
    (h0 : isDigitCh i0 = true) (h1 : ∀ c ∈ ip, isDigitCh c = true) :
    (i0 :: (ip ++ '.' :: fp)).dropWhile isDigitCh = '.' :: fp := by
  have h := dropWhileAllTrue isDigitCh (i0 :: ip) ('.' :: fp)
    (by
      intro c hc
      rcases List.mem_cons.mp hc with rfl | hc
      · exact h0
      · exact h1 _ hc)
  simpa [List.dropWhile_cons, show isDigitCh '.' = false from by decide] using h

/-- The unsigned decimal parse of a plain decimal body. -/
theorem decChars_parseUnsignedDec (i0 : Char) (ip fp : List Char)
    (h0 : isDigitCh i0 = true) (h1 : ∀ c ∈ ip, isDigitCh c = true)
    (h2 : ∀ c ∈ fp, isDigitCh c = true) :
    parseUnsignedDec (i0 :: (ip ++ '.' :: fp)) =
      some ((digitsToNat (i0 :: ip) : ℚ) +
        (digitsToNat fp : ℚ) / (10 : ℚ) ^ fp.length) := by
  have htakefp : fp.takeWhile isDigitCh = fp := by
    simpa using takeWhileAllTrue isDigitCh fp [] h2
  have hdropfp : fp.dropWhile isDigitCh = [] := by
    simpa using dropWhileAllTrue isDigitCh fp [] h2
  unfold parseUnsignedDec
  rw [decChars_takeWhile i0 ip fp h0 h1, decChars_dropWhile i0 ip fp h0 h1]
  simp [htakefp, hdropfp, withExp]

/-- Number() on a plain decimal string gives its exact value. -/
theorem jsStringToNumber_mkDecStr (neg : Bool) (i0 : Char) (ip fp : List Char)
    (h0 : isDigitCh i0 = true) (h1 : ∀ c ∈ ip, isDigitCh c = true)
    (h2 : ∀ c ∈ fp, isDigitCh c = true) :
    jsStringToNumber (mkDecStr neg (i0 :: ip) fp) =
      .val (decValue neg (i0 :: ip) fp) := by
  have hws := decChars_no_ws i0 ip fp h0 h1 h2
  have htrim : trimWs (i0 :: (ip ++ '.' :: fp)) = i0 :: (ip ++ '.' :: fp) :=
    trimWsAllFalse _ hws
  have hradix := decChars_parseRadix i0 ip fp h1
  have hdec := decChars_parseUnsignedDec i0 ip fp h0 h1 h2
  cases neg with
  | false =>
    have hsign : signSplit (i0 :: (ip ++ '.' :: fp)) = (false, i0 :: (ip ++ '.' :: fp)) :=
      signSplit_digit i0 _ h0
    have hlist : (mkDecStr false (i0 :: ip) fp).toList = i0 :: (ip ++ '.' :: fp) := rfl
    unfold jsStringToNumber
    rw [hlist, htrim]
    simp [hradix, hsign, hdec, decValue]
    intro hI
    exact absurd (hI ▸ h0) (by decide)
  | true =>
    have hws2 : ∀ c ∈ '-' :: i0 :: (ip ++ '.' :: fp), jsWs c = false := by
      intro c hc
      rcases List.mem_cons.mp hc with rfl | hc2
      · decide
      · exact hws c hc2
    have htrim2 : trimWs ('-' :: i0 :: (ip ++ '.' :: fp)) =
        '-' :: i0 :: (ip ++ '.' :: fp) := trimWsAllFalse _ hws2
    have hradix2 : parseRadix ('-' :: i0 :: (ip ++ '.' :: fp)) = none :=
      parseRadix_no_letter '-' i0 (ip ++ '.' :: fp) (Or.inl h0)
    have hlist : (mkDecStr true (i0 :: ip) fp).toList = '-' :: i0 :: (ip ++ '.' :: fp) := rfl
    unfold jsStringToNumber
    rw [hlist, htrim2]
    simp [hradix2, signSplit_minus, hdec, decValue]
    intro hI
    exact absurd (hI ▸ h0) (by decide)

/-- parseInt on a plain decimal string takes the integer digit run. -/
theorem jsParseInt_mkDecStr (neg : Bool) (i0 : Char) (ip fp : List Char)
    (h0 : isDigitCh i0 = true) (h1 : ∀ c ∈ ip, isDigitCh c = true)
    (h2 : ∀ c ∈ fp, isDigitCh c = true) :
    jsParseInt (mkDecStr neg (i0 :: ip) fp) =
      some ((if neg then (-1 : ℤ) else 1) * (digitsToNat (i0 :: ip) : ℤ)) := by
  have hws := decChars_no_ws i0 ip fp h0 h1 h2
  have htake := decChars_takeWhile i0 ip fp h0 h1
  have hnohex : ∀ c2 : Char, isDigitCh c2 = true ∨ c2 = '.' →
      ((i0 == '0') && (c2 == 'x' || c2 == 'X')) = false := by
    intro c2 hc2
    have hx : (c2 == 'x') = false := by
      rcases hc2 with h | rfl
      · exact digit_ne _ _ h (by decide)
      · decide
    have hX : (c2 == 'X') = false := by
      rcases hc2 with h | rfl
      · exact digit_ne _ _ h (by decide)
      · decide
    simp [hx, hX]
  cases neg with
  | false =>
    have hdrop : dropWs (i0 :: (ip ++ '.' :: fp)) = i0 :: (ip ++ '.' :: fp) :=
      dropWhileAllFalse _ _ hws
    have hsign : signSplit (i0 :: (ip ++ '.' :: fp)) = (false, i0 :: (ip ++ '.' :: fp)) :=
      signSplit_digit i0 _ h0
    have hlist : (mkDecStr false (i0 :: ip) fp).toList = i0 :: (ip ++ '.' :: fp) := rfl
    unfold jsParseInt
    rw [hlist]
    cases ip with
    | nil =>
      simp only [List.nil_append] at hdrop hsign htake ⊢
      simp only [hdrop, hsign]
      simp [hnohex '.' (Or.inr rfl), htake]
    | cons j ip2 =>
      simp only [List.cons_append] at hdrop hsign htake ⊢
      simp only [hdrop, hsign]
      simp [hnohex j (Or.inl (h1 j (by simp))), htake]
  | true =>
    have hws2 : ∀ c ∈ '-' :: i0 :: (ip ++ '.' :: fp), jsWs c = false := by
      intro c hc
      rcases List.mem_cons.mp hc with rfl | hc2
      · decide
      · exact hws c hc2
    have hdrop : dropWs ('-' :: i0 :: (ip ++ '.' :: fp)) = '-' :: i0 :: (ip ++ '.' :: fp) :=
      dropWhileAllFalse _ _ hws2
    have hlist : (mkDecStr true (i0 :: ip) fp).toList = '-' :: i0 :: (ip ++ '.' :: fp) := rfl
    unfold jsParseInt
    rw [hlist]
    cases ip with
    | nil =>
      simp only [List.nil_append] at hdrop htake ⊢
      simp only [hdrop, signSplit_minus]
      simp [hnohex '.' (Or.inr rfl), htake]
    | cons j ip2 =>
      simp only [List.cons_append] at hdrop htake ⊢
      simp only [hdrop, signSplit_minus]
      simp [hnohex j (Or.inl (h1 j (by simp))), htake]

/-- C10 witness: a body with an extra admin flag behaves exactly like
the same body without it. -/
theorem C10_witness :
    createUser
        (.vobj [("name", .vstr "Al"), ("email", .vstr "a@b.com"), ("admin", .vbool true)])
        (fun d => Except.ok ⟨1, d.name, d.email⟩) =
      createUser (.vobj [("name", .vstr "Al"), ("email", .vstr "a@b.com")])
        (fun d => Except.ok ⟨1, d.name, d.email⟩) :=
  (C10_unknown_fields_never_persisted
    [("name", .vstr "Al"), ("email", .vstr "a@b.com"), ("admin", .vbool true)]
    [("name", .vstr "Al"), ("email", .vstr "a@b.com")] rfl rfl
    (fun d => Except.ok ⟨1, d.name, d.email⟩) none
    (fun _ d => Except.ok ⟨1, d.name, d.email⟩)).1



/-- A plain decimal string passes the id guard, its Number value is
exact, and parseInt on it is the truncation of that value. -/
theorem decStr_accepted_and_trunc (neg : Bool) (i0 : Char) (ip fp : List Char)
    (h0 : isDigitCh i0 = true) (h1 : ∀ c ∈ ip, isDigitCh c = true)
    (h2 : ∀ c ∈ fp, isDigitCh c = true) :
    invalidId (some (mkDecStr neg (i0 :: ip) fp)) = false ∧
    jsStringToNumber (mkDecStr neg (i0 :: ip) fp) = .val (decValue neg (i0 :: ip) fp) ∧
    jsParseInt (mkDecStr neg (i0 :: ip) fp) =
      some (ratTrunc (decValue neg (i0 :: ip) fp)) := by
  have hnum := jsStringToNumber_mkDecStr neg i0 ip fp h0 h1 h2
  have hint := jsParseInt_mkDecStr neg i0 ip fp h0 h1 h2
  have hf0 : (0 : ℚ) ≤ (digitsToNat fp : ℚ) / (10 : ℚ) ^ fp.length := by positivity
  have hf1 : (digitsToNat fp : ℚ) / (10 : ℚ) ^ fp.length < 1 := by
    rw [div_lt_one (by positivity)]
    exact_mod_cast digitsToNat_lt_pow fp h2
  have htr := ratTrunc_of_fract (digitsToNat (i0 :: ip))
    ((digitsToNat fp : ℚ) / (10 : ℚ) ^ fp.length) hf0 hf1
  refine ⟨?_, hnum, ?_⟩
  · have hempty : (mkDecStr neg (i0 :: ip) fp == "") = false := by
      apply beq_eq_false_iff_ne.mpr
      intro hEq
      have hdata := congrArg String.data hEq
      cases neg <;> simp [mkDecStr] at hdata
    have hnan : (jsStringToNumber (mkDecStr neg (i0 :: ip) fp) == JsNum.nan) = false := by
      rw [hnum]
      apply beq_eq_false_iff_ne.mpr
      intro hEq
      exact JsNum.noConfusion hEq
    show (mkDecStr neg (i0 :: ip) fp == "" ||
      jsStringToNumber (mkDecStr neg (i0 :: ip) fp) == JsNum.nan) = false
    rw [hempty, hnan]
    rfl
  · rw [hint]
    cases neg with
    | false =>
      simp only [decValue, if_false, Bool.false_eq_true]
      rw [htr.1]
      simp
    | true =>
      simp only [decValue, if_true]
      rw [htr.2]
      simp

/-- C5 counterexample: the id ".5" is accepted by the guard (its
Number value is the non-integer one half), but the value passed to
persistence is parseInt(".5"), which is NaN — not the truncation of
one half to the integer zero as the claim states. -/
theorem C5_dot5_counterexample :
    invalidId (some ".5") = false ∧
    jsStringToNumber ".5" = .val (1 / 2) ∧
    jsParseInt ".5" = none ∧
    ratTrunc (1 / 2) = 0 ∧
    (getUser (some ".5") (fun _ => Except.error ⟨"e", none⟩)).2 =
      some (.findUnique none) := by
  have h5 : digitsToNat ['5'] = 5 := rfl
  have hz : digitsToNat [] = 0 := rfl
  have hval : jsStringToNumber ".5" =
      .val ((digitsToNat [] : ℚ) + (digitsToNat ['5'] : ℚ) / (10 : ℚ) ^
        (['5'] : List Char).length) := rfl
  have hv2 : ((digitsToNat [] : ℚ) + (digitsToNat ['5'] : ℚ) / (10 : ℚ) ^
      (['5'] : List Char).length) = 1 / 2 := by
    rw [h5, hz]
    push_cast
    norm_num
  refine ⟨rfl, ?_, rfl, ?_, rfl⟩
  · rw [hval, hv2]
  · rw [ratTrunc, if_pos (by norm_num), Int.floor_eq_zero_iff]
    constructor <;> norm_num

/-- C5 amended: getUser, updateUser and deleteUser reject a missing,
empty or non-numeric id with 400 Invalid user ID and no persistence
call; they accept the id exactly when it is present, non-empty and its
Number coercion is not NaN; the persistence call then uses
parseInt(id).  For plain decimal id strings (sign, digits, dot,
digits) the parseInt value is exactly the truncation of the numeric
value; other accepted forms (such as ".5") can instead yield NaN at
the boundary. -/
theorem C5_amended_id_rule :
    (∀ id dbFind, invalidId id = true →
      getUser id dbFind = (⟨400, .errorObj "Invalid user ID"⟩, none)) ∧
    (∀ id body dbU, invalidId id = true →
      updateUser id body dbU = (⟨400, .errorObj "Invalid user ID"⟩, none)) ∧
    (∀ id dbD, invalidId id = true →
      deleteUser id dbD = (⟨400, .errorObj "Invalid user ID"⟩, none)) ∧
    (∀ s, invalidId (some s) = true ↔ (s = "" ∨ jsStringToNumber s = .nan)) ∧
    (∀ s dbFind, invalidId (some s) = false →
      (getUser (some s) dbFind).2 = some (.findUnique (jsParseInt s))) ∧
    (∀ s dbD, invalidId (some s) = false →
      (deleteUser (some s) dbD).2 = some (.delete (jsParseInt s))) ∧
    (∀ s body data dbU, invalidId (some s) = false → safeParse body = .success data →
      (updateUser (some s) body dbU).2 = some (.update (jsParseInt s) data)) ∧
    (∀ neg ip fp, ip ≠ [] → (∀ c ∈ ip, isDigitCh c = true) →
      (∀ c ∈ fp, isDigitCh c = true) →
      invalidId (some (mkDecStr neg ip fp)) = false ∧
      jsStringToNumber (mkDecStr neg ip fp) = .val (decValue neg ip fp) ∧
      jsParseInt (mkDecStr neg ip fp) = some (ratTrunc (decValue neg ip fp))) := by
  refine ⟨?_, ?_, ?_, ?_, ?_, ?_, ?_, ?_⟩
  · intro id dbFind h
    match id with
    | none => rfl
    | some s => simp [getUser, h]
  · intro id body dbU h
    match id with
    | none => rfl
    | some s => simp [updateUser, h]
  · intro id dbD h
    match id with
    | none => rfl
    | some s => simp [deleteUser, h]
  · intro s
    show (s == "" || jsStringToNumber s == JsNum.nan) = true ↔ _
    simp [Bool.or_eq_true]
  · intro s dbFind h
    cases hdb : dbFind (jsParseInt s) with
    | ok r => cases r <;> simp [getUser, h, hdb]
    | error e => simp [getUser, h, hdb]
  · intro s dbD h
    cases hdb : dbD (jsParseInt s) with
    | ok r => simp [deleteUser, h, hdb]
    | error e => simp [deleteUser, h, hdb]
  · intro s body data dbU h hp
    cases hdb : dbU (jsParseInt s) data with
    | ok r => simp [updateUser, h, hp, hdb]
    | error e => simp [updateUser, h, hp, hdb]
  · intro neg ip fp hip h1 h2
    match ip, hip with
    | i0 :: ip2, _ =>
      exact decStr_accepted_and_trunc neg i0 ip2 fp (h1 i0 (by simp))
        (fun c hc => h1 c (by simp [hc])) h2

/-- C5 amended witness: the non-numeric id "abc" is rejected with 400,
and the plain decimal id "12.5" is accepted with parseInt value equal
to the truncation of its numeric value. -/
theorem C5_amended_witness :
    getUser (some "abc") (fun _ => Except.ok none) =
      (⟨400, .errorObj "Invalid user ID"⟩, none) ∧
    invalidId (some (mkDecStr false ['1', '2'] ['5'])) = false ∧
    jsStringToNumber (mkDecStr false ['1', '2'] ['5']) =
      .val (decValue false ['1', '2'] ['5']) ∧
    jsParseInt (mkDecStr false ['1', '2'] ['5']) =
      some (ratTrunc (decValue false ['1', '2'] ['5'])) :=
  ⟨C5_amended_id_rule.1 (some "abc") (fun _ => Except.ok none) rfl,
   C5_amended_id_rule.2.2.2.2.2.2.2 false ['1', '2'] ['5'] (by decide) (by decide) (by decide)⟩
